import Mathlib

/-!
# The execution context of `neighbor` (`pkg/neighbor/context.go`)

A shallow embedding of `Ctx`, `NewCtx`, `Ctx.Validate` and
`Ctx.CreateExternalResultDir`, together with a small model of the part of the
operating system the last one talks to (`os.Stat`, `os.IsNotExist`, `os.Mkdir`).

Conventions of the embedding:

* a Go `string` is a Lean `String`, a Go slice of strings a `List String`;
  `len x == 0` is `x.length = 0`;
* a pointer or interface value that the file only stores (`*config.Config`,
  `context.Context`, `*log.Logger`) is an optional handle, `none` being `nil`;
* a Go `error` is an `Option GoError`, `none` being `nil`;
* the methods have a pointer receiver, so each one returns the context it
  leaves behind next to its result; `CreateExternalResultDir` also threads the
  state of the filesystem.
-/

namespace Neighbor

/-! ## Errors -/

/-- The error numbers the modelled system calls can report. -/
inductive Errno where
  | ENOENT
  | ENOTDIR
  | EACCES
  | EEXIST
  | EINVAL
  | ENAMETOOLONG
  deriving DecidableEq, Repr

/-- The two shapes of error value this file can hand to its caller: the value
built by `fmt.Errorf` (carrying its formatted message) and the `*os.PathError`
returned by the `os` package (operation, path, error number). -/
inductive GoError where
  | errorString (msg : String)
  | PathError (Op : String) (Path : String) (Err : Errno)
  deriving DecidableEq, Repr

deriving instance DecidableEq for Except

/-! ## Data model (`context.go` lines 21-38) -/

/-- A handle for a value that is stored but never inspected; `none` is `nil`. -/
abbrev Handle := Option Nat

/-- The GitHub details, `GitHubDetails` in the source. -/
structure GitHubDetails where
  AccessToken : String
  SearchType : String
  Query : String
  deriving DecidableEq, Repr

/-- The context, `Ctx` in the source. -/
structure Ctx where
  Config : Handle
  Context : Handle
  GitHub : GitHubDetails
  Logger : Handle
  NeighborDir : String
  ExtResultDir : String
  ExternalCmd : List String
  deriving DecidableEq, Repr

/-- The constructor `NewCtx`: the zero value of `Ctx` (`&Ctx{}`). -/
def NewCtx : Ctx :=
  { Config := none
    Context := none
    GitHub := { AccessToken := "", SearchType := "", Query := "" }
    Logger := none
    NeighborDir := ""
    ExtResultDir := ""
    ExternalCmd := [] }

/-! ## `Validate` (`context.go` lines 57-86) -/

/-- Go's `strings.Join`: the elements, with `sep` between consecutive ones. -/
def Join : List String → String → String
  | [], _ => ""
  | [a], _ => a
  | a :: b :: rest, sep => a ++ sep ++ Join (b :: rest) sep

/-- Go's `fmt.Errorf("%s cannot be empty", fstr)`. -/
def Errorf_cannot_be_empty (fstr : String) : GoError :=
  GoError.errorString (fstr ++ " cannot be empty")

/-- The slice `failed` of `Validate` once its four checks have run
(lines 61-77): each check appends its tag when the field has length zero. -/
def Validate.failed (ctx : Ctx) : List String :=
  let failed : List String := []
  let failed := if ctx.GitHub.AccessToken.length = 0 then failed ++ ["access token"] else failed
  let failed := if ctx.GitHub.SearchType.length = 0 then failed ++ ["search type"] else failed
  let failed := if ctx.GitHub.Query.length = 0 then failed ++ ["query"] else failed
  let failed := if ctx.ExternalCmd.length = 0 then failed ++ ["external command"] else failed
  failed

/-- The method `Ctx.Validate`: the error it returns (`none` for `nil`). -/
def Validate (ctx : Ctx) : Option GoError :=
  let failed := Validate.failed ctx
  if failed.length ≠ 0 then
    let fstr := Join failed ", "
    some (Errorf_cannot_be_empty fstr)
  else
    none

/-! ## The filesystem seen through `os.Stat` and `os.Mkdir`

The state is a table from absolute paths (lists of names, the root being `[]`)
to nodes. A node is a regular file or a directory and carries its permission
bits; the calling process is taken to own every node and not to be the
superuser, so the owner bits decide. Names are resolved one component at a
time as the kernel does: every directory passed through must exist, be a
directory and be searchable. A name is checked before it is resolved: Go's
`syscall` layer refuses a name with a NUL byte (`EINVAL`), the kernel a name of
`PATH_MAX` bytes or more and a component of more than `NAME_MAX` bytes
(`ENAMETOOLONG`). Symbolic links are not modelled. -/

/-- What a node is. -/
inductive Kind where
  | regular
  | directory
  deriving DecidableEq, Repr

/-- A node of the filesystem: its kind and its permission bits. -/
structure Inode where
  kind : Kind
  mode : Nat
  deriving DecidableEq, Repr

/-- An absolute path: the names from the root down. -/
abbrev Path := List String

/-- The state outside the context: the nodes below the root, the permission
bits of the root directory, the working directory and file mode creation mask
of the process. -/
structure World where
  nodes : List (Path × Inode)
  rootMode : Nat
  cwd : Path
  umask : Nat
  deriving DecidableEq, Repr

/-- The first node recorded for a path in a table. -/
def findNode : List (Path × Inode) → Path → Option Inode
  | [], _ => none
  | (q, n) :: rest, p => if q = p then some n else findNode rest p

/-- The node at an absolute path; the root always exists and is a directory. -/
def World.lookup (w : World) (p : Path) : Option Inode :=
  match p with
  | [] => some { kind := Kind.directory, mode := w.rootMode }
  | _ :: _ => findNode w.nodes p

/-- Owner search (execute) bit. -/
def Inode.searchable (n : Inode) : Bool := n.mode &&& 0o100 != 0

/-- Owner write bit. -/
def Inode.writable (n : Inode) : Bool := n.mode &&& 0o200 != 0

/-- The longest component a directory can hold, in bytes. -/
def NAME_MAX : Nat := 255

/-- The size of the buffer the kernel copies a path into, its closing NUL
byte included. -/
def PATH_MAX : Nat := 4096

/-- Whether a path string holds a NUL byte. -/
def hasNul (name : String) : Bool := name.data.contains (Char.ofNat 0)

/-- The names between the slashes of a path string, empty ones dropped;
`acc` holds the characters of the name being read. -/
def splitSlash : List Char → List Char → List String
  | [], acc => if acc = [] then [] else [String.mk acc]
  | c :: cs, acc =>
    if c = '/' then
      if acc = [] then splitSlash cs [] else String.mk acc :: splitSlash cs []
    else splitSlash cs (acc ++ [c])

/-- The components of a path string. -/
def components (name : String) : List String := splitSlash name.data []

/-- Where resolution of a path string starts: the root for an absolute path,
the working directory otherwise. -/
def World.start (w : World) (name : String) : Path :=
  if name.data.head? = some '/' then [] else w.cwd

/-- Whether a path string ends in a slash. -/
def trailingSlash (name : String) : Bool := name.data.getLast? == some '/'

/-- One step of name resolution: look the component `c` up in the directory
`cur`. -/
def World.step (w : World) (cur : Path) (c : String) : Except Errno Path :=
  match w.lookup cur with
  | none => .error Errno.ENOENT
  | some d =>
    if d.kind ≠ Kind.directory then .error Errno.ENOTDIR
    else if !d.searchable then .error Errno.EACCES
    else if c = "." then .ok cur
    else if c = ".." then .ok cur.dropLast
    else if NAME_MAX < c.utf8ByteSize then .error Errno.ENAMETOOLONG
    else
      match w.lookup (cur ++ [c]) with
      | none => .error Errno.ENOENT
      | some _ => .ok (cur ++ [c])

/-- Name resolution: the components one after the other, from `cur`. -/
def World.walk (w : World) : Path → List String → Except Errno Path
  | cur, [] => .ok cur
  | cur, c :: cs =>
    match w.step cur c with
    | .error e => .error e
    | .ok next => w.walk next cs

/-- Name resolution down to the node: the path reached and the node there. -/
def World.resolve (w : World) (cur : Path) (cs : List String) : Except Errno (Path × Inode) :=
  match w.walk cur cs with
  | .error e => .error e
  | .ok p =>
    match w.lookup p with
    | none => .error Errno.ENOENT
    | some n => .ok (p, n)

/-- Go's `syscall.Stat` on a path string: the conversion of the name, which
refuses a NUL byte, then the system call `stat(2)`. A name that ends in a
slash must resolve to a directory. -/
def World.sysStat (w : World) (name : String) : Except Errno Inode :=
  if hasNul name then .error Errno.EINVAL
  else if PATH_MAX ≤ name.utf8ByteSize then .error Errno.ENAMETOOLONG
  else if name = "" then .error Errno.ENOENT
  else
    match w.resolve (w.start name) (components name) with
    | .error e => .error e
    | .ok (_, n) =>
      if trailingSlash name && n.kind ≠ Kind.directory then .error Errno.ENOTDIR
      else .ok n

/-- The directory node `mkdir(2)` creates: the bits of `perm` that the mask
leaves. -/
def World.newDir (w : World) (perm : Nat) : Inode :=
  { kind := Kind.directory, mode := perm &&& (0o777 ^^^ (w.umask &&& 0o777)) }

/-- The state with one more node. -/
def World.insert (w : World) (p : Path) (n : Inode) : World :=
  { w with nodes := (p, n) :: w.nodes }

/-- Go's `syscall.Mkdir` on a path string: the conversion of the name, which
refuses a NUL byte, then the system call `mkdir(2)`; the new state, or the
error number. All components but the last are resolved; the last one is
created in the directory they lead to, which must be searchable and writable.
Nothing else is created, and no other node is touched. -/
def World.sysMkdir (w : World) (name : String) (perm : Nat) : Except Errno World :=
  if hasNul name then .error Errno.EINVAL
  else if PATH_MAX ≤ name.utf8ByteSize then .error Errno.ENAMETOOLONG
  else if name = "" then .error Errno.ENOENT
  else
    match (components name).getLast? with
    | none => .error Errno.EEXIST
    | some c =>
      match w.resolve (w.start name) (components name).dropLast with
      | .error e => .error e
      | .ok (parent, d) =>
        if d.kind ≠ Kind.directory then .error Errno.ENOTDIR
        else if !d.searchable then .error Errno.EACCES
        else if c = "." ∨ c = ".." then .error Errno.EEXIST
        else if NAME_MAX < c.utf8ByteSize then .error Errno.ENAMETOOLONG
        else if (w.lookup (parent ++ [c])).isSome then .error Errno.EEXIST
        else if !d.writable then .error Errno.EACCES
        else .ok (w.insert (parent ++ [c]) (w.newDir perm))

/-! ## The `os` package -/

/-- Go's `os.ModePerm`. -/
def ModePerm : Nat := 0o777

/-- Go's `os.Stat`: the file information and the error, a `*PathError` for
`stat` when the system call fails. -/
def Stat (w : World) (name : String) : Option Inode × Option GoError :=
  match w.sysStat name with
  | .ok n => (some n, none)
  | .error e => (none, some (GoError.PathError "stat" name e))

/-- Go's `os.Mkdir`: the state it leaves and the error it returns. -/
def Mkdir (w : World) (name : String) (perm : Nat) : World × Option GoError :=
  match w.sysMkdir name perm with
  | .ok w' => (w', none)
  | .error e => (w, some (GoError.PathError "mkdir" name e))

/-- Go's `os.IsNotExist`: the error is a path error for `ENOENT`. -/
def IsNotExist : Option GoError → Bool
  | some (GoError.PathError _ _ Errno.ENOENT) => true
  | _ => false

/-! ## `CreateExternalResultDir` (`context.go` lines 47-53) -/

/-- The method `Ctx.CreateExternalResultDir`: the context and filesystem it
leaves behind, and the error it returns. -/
def CreateExternalResultDir (ctx : Ctx) (w : World) : Ctx × World × Option GoError :=
  let (_, err) := Stat w ctx.ExtResultDir
  if IsNotExist err then
    let (w', e) := Mkdir w ctx.ExtResultDir ModePerm
    (ctx, w', e)
  else
    (ctx, w, none)

/-! ## Sequences of calls -/

/-- The two methods a caller can invoke on a context. -/
inductive Call where
  | validate
  | createExternalResultDir
  deriving DecidableEq, Repr

/-- One call on a context in a filesystem state: what it leaves behind and
the error it returns. -/
def Call.run : Call → Ctx × World → (Ctx × World) × Option GoError
  | Call.validate, (ctx, w) => ((ctx, w), Validate ctx)
  | Call.createExternalResultDir, (ctx, w) =>
    let (ctx', w', e) := CreateExternalResultDir ctx w
    ((ctx', w'), e)

/-- A sequence of calls, errors ignored: the context and filesystem state at
the end. -/
def runCalls : List Call → Ctx × World → Ctx × World
  | [], s => s
  | c :: cs, s => runCalls cs (c.run s).1

/-! ## Sample states -/

/-- A home directory with a writable `work` directory, a regular file
`work/notes` and a directory `locked` without any permission bit. -/
def sampleWorld : World :=
  { nodes :=
      [ (["home"], { kind := Kind.directory, mode := 0o755 }),
        (["home", "work"], { kind := Kind.directory, mode := 0o755 }),
        (["home", "work", "notes"], { kind := Kind.regular, mode := 0o644 }),
        (["home", "locked"], { kind := Kind.directory, mode := 0o000 }) ]
    rootMode := 0o755
    cwd := ["home", "work"]
    umask := 0o022 }

/-- A fully populated context whose result directory is `name`. -/
def sampleCtx (name : String) : Ctx :=
  { Config := some 1
    Context := some 2
    GitHub := { AccessToken := "tok", SearchType := "repositories", Query := "lang:go" }
    Logger := some 3
    NeighborDir := "/home/work"
    ExtResultDir := name
    ExternalCmd := ["echo", "hi"] }

/-- The fully populated context of the scenarios, with the search type left
out: credential `tok`, query `lang:go`, command `echo hi`. -/
def scenarioCtx : Ctx :=
  { Config := none
    Context := none
    GitHub := { AccessToken := "tok", SearchType := "", Query := "lang:go" }
    Logger := none
    NeighborDir := ""
    ExtResultDir := ""
    ExternalCmd := ["echo", "hi"] }

/-- A context whose required fields are non-empty but of little use: a token
of blanks, a command made of one empty word, and no result directory. -/
def oddCtx : Ctx :=
  { Config := none
    Context := none
    GitHub := { AccessToken := "   ", SearchType := "x", Query := " " }
    Logger := none
    NeighborDir := ""
    ExtResultDir := ""
    ExternalCmd := [""] }

/-! ## The specification's wording of the error message -/

/-- The fixed list of the specification: each required field's tag, in the
check order, with whether the field is empty in `ctx`. -/
def Spec.requiredFields (ctx : Ctx) : List (String × Bool) :=
  [ ("access token", ctx.GitHub.AccessToken.isEmpty),
    ("search type", ctx.GitHub.SearchType.isEmpty),
    ("query", ctx.GitHub.Query.isEmpty),
    ("external command", ctx.ExternalCmd.isEmpty) ]

/-- The tags of the empty fields, in the order of the fixed list. -/
def Spec.missingTags (ctx : Ctx) : List String :=
  ((Spec.requiredFields ctx).filter (fun t => t.2)).map (fun t => t.1)

/-- The message of the specification: the missing tags joined by a comma and
a space, followed by the suffix. -/
def Spec.message (ctx : Ctx) : String :=
  Join (Spec.missingTags ctx) ", " ++ " cannot be empty"

/-- The text `sub` occurs in the text `s`. -/
def occursIn (sub s : String) : Prop := sub.data <:+: s.data

instance (sub s : String) : Decidable (occursIn sub s) := by
  unfold occursIn; infer_instance

/-- The message as a function of which fields are empty. -/
def messageOf (a s q e : Bool) : String :=
  Join ((([("access token", a), ("search type", s), ("query", q), ("external command", e)]
    : List (String × Bool)).filter (fun t => t.2)).map (fun t => t.1)) ", " ++ " cannot be empty"

/-! ## Lemmas on `Validate` -/

theorem length_eq_zero_iff_isEmpty (s : String) : s.length = 0 ↔ s.isEmpty = true := by
  rcases s with ⟨l⟩
  cases l with
  | nil => decide
  | cons c cs =>
    simp [String.length, String.isEmpty, String.endPos, String.utf8ByteSize,
      String.utf8ByteSize.go, String.ext_iff]
    intro h
    have h0 := congrArg String.Pos.byteIdx h
    have hc := Char.utf8Size_pos c
    simp at h0
    omega

theorem cmd_length_eq_zero_iff_isEmpty (l : List String) : l.length = 0 ↔ l.isEmpty = true := by
  cases l <;> simp

theorem failed_eq_missingTags (ctx : Ctx) : Validate.failed ctx = Spec.missingTags ctx := by
  unfold Validate.failed Spec.missingTags Spec.requiredFields
  by_cases h1 : ctx.GitHub.AccessToken.length = 0 <;>
  by_cases h2 : ctx.GitHub.SearchType.length = 0 <;>
  by_cases h3 : ctx.GitHub.Query.length = 0 <;>
  by_cases h4 : ctx.ExternalCmd.length = 0 <;>
  have e1 := length_eq_zero_iff_isEmpty ctx.GitHub.AccessToken <;>
  have e2 := length_eq_zero_iff_isEmpty ctx.GitHub.SearchType <;>
  have e3 := length_eq_zero_iff_isEmpty ctx.GitHub.Query <;>
  have e4 := cmd_length_eq_zero_iff_isEmpty ctx.ExternalCmd <;>
  simp only [h1, h2, h3, h4, true_iff, false_iff, Bool.not_eq_true] at e1 e2 e3 e4 <;>
  simp [h1, h2, h3, h4, e1, e2, e3, e4]

theorem message_eq_messageOf (ctx : Ctx) :
    Spec.message ctx = messageOf ctx.GitHub.AccessToken.isEmpty ctx.GitHub.SearchType.isEmpty
      ctx.GitHub.Query.isEmpty ctx.ExternalCmd.isEmpty := rfl

theorem missingTags_length_eq_zero_iff (ctx : Ctx) :
    (Spec.missingTags ctx).length = 0 ↔
      ctx.GitHub.AccessToken.isEmpty = false ∧ ctx.GitHub.SearchType.isEmpty = false ∧
      ctx.GitHub.Query.isEmpty = false ∧ ctx.ExternalCmd.isEmpty = false := by
  unfold Spec.missingTags Spec.requiredFields
  cases ctx.GitHub.AccessToken.isEmpty <;> cases ctx.GitHub.SearchType.isEmpty <;>
  cases ctx.GitHub.Query.isEmpty <;> cases ctx.ExternalCmd.isEmpty <;> simp

theorem Validate_eq_spec (ctx : Ctx) :
    Validate ctx =
      if (Spec.missingTags ctx).length ≠ 0 then some (GoError.errorString (Spec.message ctx))
      else none := by
  unfold Validate
  simp only [failed_eq_missingTags, Errorf_cannot_be_empty, Spec.message]

theorem isEmpty_eq_false_iff_pos (s : String) : s.isEmpty = false ↔ 0 < s.length := by
  have h := length_eq_zero_iff_isEmpty s
  cases hs : s.isEmpty <;> simp [hs] at h ⊢ <;> omega

theorem cmd_isEmpty_eq_false_iff_pos (l : List String) : l.isEmpty = false ↔ 0 < l.length := by
  cases l <;> simp

theorem isEmpty_congr {s t : String} (h : s.length = 0 ↔ t.length = 0) :
    s.isEmpty = t.isEmpty := by
  rw [length_eq_zero_iff_isEmpty, length_eq_zero_iff_isEmpty] at h
  cases hs : s.isEmpty <;> cases ht : t.isEmpty <;> simp [hs, ht] at h ⊢

theorem cmd_isEmpty_congr {s t : List String} (h : s.length = 0 ↔ t.length = 0) :
    s.isEmpty = t.isEmpty := by
  cases s <;> cases t <;> simp at h ⊢

theorem occursIn_messageOf (a s q e : Bool) :
    (occursIn "access token" (messageOf a s q e) ↔ a = true) ∧
    (occursIn "search type" (messageOf a s q e) ↔ s = true) ∧
    (occursIn "query" (messageOf a s q e) ↔ q = true) ∧
    (occursIn "external command" (messageOf a s q e) ↔ e = true) := by
  revert a s q e
  decide

theorem Validate_eq_none_iff (ctx : Ctx) :
    Validate ctx = none ↔
      (0 < ctx.GitHub.AccessToken.length ∧ 0 < ctx.GitHub.SearchType.length ∧
        0 < ctx.GitHub.Query.length ∧ 0 < ctx.ExternalCmd.length) := by
  rw [Validate_eq_spec, ← isEmpty_eq_false_iff_pos, ← isEmpty_eq_false_iff_pos,
    ← isEmpty_eq_false_iff_pos, ← cmd_isEmpty_eq_false_iff_pos,
    ← missingTags_length_eq_zero_iff]
  by_cases h : (Spec.missingTags ctx).length = 0 <;> simp [h]

/-! ## The claims on `Validate` and `NewCtx` -/

/-- C1: `Validate` returns nil exactly when the access token, the search
type and the query have positive length and the external command has at
least one element. -/
theorem Validate_nil_iff_required_nonempty (ctx : Ctx) :
    Validate ctx = none ↔
      (0 < ctx.GitHub.AccessToken.length ∧ 0 < ctx.GitHub.SearchType.length ∧
        0 < ctx.GitHub.Query.length ∧ 0 < ctx.ExternalCmd.length) :=
  Validate_eq_none_iff ctx

/-- C2: when at least one required field is empty, `Validate` fails and the
message of its error is the specification's message: the tags of the empty
fields, taken from the fixed list in its order, joined by a comma and a space
and followed by " cannot be empty". The tags recorded keep the order of the
fixed list, and a tag occurs in the message exactly when its field is empty. -/
theorem Validate_message_names_missing (ctx : Ctx)
    (h : ctx.GitHub.AccessToken.length = 0 ∨ ctx.GitHub.SearchType.length = 0 ∨
      ctx.GitHub.Query.length = 0 ∨ ctx.ExternalCmd.length = 0) :
    Validate ctx = some (GoError.errorString (Spec.message ctx)) ∧
    Validate.failed ctx = Spec.missingTags ctx ∧
    List.Sublist (Validate.failed ctx)
      ["access token", "search type", "query", "external command"] ∧
    (occursIn "access token" (Spec.message ctx) ↔ ctx.GitHub.AccessToken.length = 0) ∧
    (occursIn "search type" (Spec.message ctx) ↔ ctx.GitHub.SearchType.length = 0) ∧
    (occursIn "query" (Spec.message ctx) ↔ ctx.GitHub.Query.length = 0) ∧
    (occursIn "external command" (Spec.message ctx) ↔ ctx.ExternalCmd.length = 0) := by
  have hne : (Spec.missingTags ctx).length ≠ 0 := by
    intro h0
    have h1 := (Validate_eq_none_iff ctx).1
      (by rw [Validate_eq_spec]; simp [h0])
    omega
  have hocc := occursIn_messageOf ctx.GitHub.AccessToken.isEmpty ctx.GitHub.SearchType.isEmpty
    ctx.GitHub.Query.isEmpty ctx.ExternalCmd.isEmpty
  rw [← message_eq_messageOf] at hocc
  refine ⟨?_, failed_eq_missingTags ctx, ?_, ?_, ?_, ?_, ?_⟩
  · rw [Validate_eq_spec]; simp [hne]
  · rw [failed_eq_missingTags]
    unfold Spec.missingTags Spec.requiredFields
    cases ctx.GitHub.AccessToken.isEmpty <;> cases ctx.GitHub.SearchType.isEmpty <;>
    cases ctx.GitHub.Query.isEmpty <;> cases ctx.ExternalCmd.isEmpty <;> decide
  · rw [length_eq_zero_iff_isEmpty]; exact hocc.1
  · rw [length_eq_zero_iff_isEmpty]; exact hocc.2.1
  · rw [length_eq_zero_iff_isEmpty]; exact hocc.2.2.1
  · rw [cmd_length_eq_zero_iff_isEmpty]; exact hocc.2.2.2

/-- Witness for C2: a context without access token and without query. -/
theorem Validate_message_names_missing_witness :
    Validate { scenarioCtx with GitHub := { AccessToken := "", SearchType := "code", Query := "" } }
      = some (GoError.errorString "access token, query cannot be empty") :=
  (Validate_message_names_missing
    { scenarioCtx with GitHub := { AccessToken := "", SearchType := "code", Query := "" } }
    (Or.inl (by decide))).1

/-- C3: when exactly one of the four required fields is empty, `Validate`
fails with the message "<tag> cannot be empty" for the tag of that field, and
that message contains neither the separator nor any of the other three
tags. -/
theorem Validate_single_missing (ctx : Ctx)
    (h : ((Spec.requiredFields ctx).filter (fun t => t.2)).length = 1) :
    ∃ tag, (tag, true) ∈ Spec.requiredFields ctx ∧
      Validate ctx = some (GoError.errorString (tag ++ " cannot be empty")) ∧
      ¬ occursIn ", " (tag ++ " cannot be empty") ∧
      ∀ other ∈ ["access token", "search type", "query", "external command"],
        other ≠ tag → ¬ occursIn other (tag ++ " cannot be empty") := by
  rw [Validate_eq_spec, message_eq_messageOf]
  unfold Spec.missingTags
  unfold Spec.requiredFields at h ⊢
  generalize ctx.GitHub.AccessToken.isEmpty = a at h ⊢
  generalize ctx.GitHub.SearchType.isEmpty = s at h ⊢
  generalize ctx.GitHub.Query.isEmpty = q at h ⊢
  generalize ctx.ExternalCmd.isEmpty = e at h ⊢
  revert h
  cases a <;> cases s <;> cases q <;> cases e <;> intro h <;>
    first
    | exact absurd h (by decide)
    | exact ⟨"access token", by decide, by decide, by decide, by decide⟩
    | exact ⟨"search type", by decide, by decide, by decide, by decide⟩
    | exact ⟨"query", by decide, by decide, by decide, by decide⟩
    | exact ⟨"external command", by decide, by decide, by decide, by decide⟩

/-- Witness for C3: the scenario with credential `tok`, no search type, query
`lang:go` and command `echo hi` fails with "search type cannot be empty". -/
theorem Validate_single_missing_witness :
    Validate scenarioCtx = some (GoError.errorString "search type cannot be empty") ∧
    ∃ tag, (tag, true) ∈ Spec.requiredFields scenarioCtx ∧
      Validate scenarioCtx = some (GoError.errorString (tag ++ " cannot be empty")) ∧
      ¬ occursIn ", " (tag ++ " cannot be empty") ∧
      ∀ other ∈ ["access token", "search type", "query", "external command"],
        other ≠ tag → ¬ occursIn other (tag ++ " cannot be empty") :=
  ⟨by decide, Validate_single_missing scenarioCtx (by decide)⟩

/-- C4: `NewCtx` is the zero value: the five strings are empty, the command
is empty, the three handles are nil; and `Validate` on it fails with the
message that lists all four tags. -/
theorem NewCtx_zero_and_invalid :
    NewCtx.GitHub.AccessToken = "" ∧ NewCtx.GitHub.SearchType = "" ∧ NewCtx.GitHub.Query = "" ∧
    NewCtx.NeighborDir = "" ∧ NewCtx.ExtResultDir = "" ∧ NewCtx.ExternalCmd = [] ∧
    NewCtx.Config = none ∧ NewCtx.Context = none ∧ NewCtx.Logger = none ∧
    Validate NewCtx = some (GoError.errorString
      "access token, search type, query, external command cannot be empty") := by
  decide

/-- C10: the result of `Validate` depends on nothing but which of the four
required fields are empty: two contexts that agree on that get the same
result in any two filesystem states, and the call leaves the context and the
filesystem as they were. A context with a token of blanks, a command that is
one empty word and no result directory validates. -/
theorem Validate_depends_only_on_emptiness :
    (∀ (c₁ c₂ : Ctx) (w₁ w₂ : World),
      (c₁.GitHub.AccessToken.length = 0 ↔ c₂.GitHub.AccessToken.length = 0) →
      (c₁.GitHub.SearchType.length = 0 ↔ c₂.GitHub.SearchType.length = 0) →
      (c₁.GitHub.Query.length = 0 ↔ c₂.GitHub.Query.length = 0) →
      (c₁.ExternalCmd.length = 0 ↔ c₂.ExternalCmd.length = 0) →
      (Call.validate.run (c₁, w₁)).2 = (Call.validate.run (c₂, w₂)).2 ∧
      Validate c₁ = Validate c₂ ∧
      (Call.validate.run (c₁, w₁)).1 = (c₁, w₁)) ∧
    Validate oddCtx = none := by
  refine ⟨?_, by decide⟩
  intro c₁ c₂ w₁ w₂ h1 h2 h3 h4
  have hv : Validate c₁ = Validate c₂ := by
    rw [Validate_eq_spec, Validate_eq_spec, message_eq_messageOf, message_eq_messageOf]
    unfold Spec.missingTags Spec.requiredFields
    rw [isEmpty_congr h1, isEmpty_congr h2, isEmpty_congr h3, cmd_isEmpty_congr h4]
  exact ⟨hv, hv, rfl⟩

/-- Witness for C10: the odd context and a sample context, in two different
filesystem states. -/
theorem Validate_depends_only_on_emptiness_witness :
    Validate oddCtx = Validate (sampleCtx "/home/work/out") :=
  (Validate_depends_only_on_emptiness.1 oddCtx (sampleCtx "/home/work/out") sampleWorld
    (sampleWorld.insert ["tmp"] (sampleWorld.newDir ModePerm))
    (by decide) (by decide) (by decide) (by decide)).2.1

/-! ## Lemmas on the filesystem model -/

theorem walk_append (w : World) (cs : List String) (c : String) (cur : Path) :
    w.walk cur (cs ++ [c]) =
      match w.walk cur cs with
      | .error e => .error e
      | .ok p => w.step p c := by
  induction cs generalizing cur with
  | nil =>
    simp only [List.nil_append, World.walk]
    cases w.step cur c <;> rfl
  | cons d ds ih =>
    simp only [List.cons_append, World.walk]
    cases w.step cur d with
    | error e => rfl
    | ok next => exact ih next

theorem splitSlash_ne_nil (cs acc : List Char) (h : acc ≠ []) : splitSlash cs acc ≠ [] := by
  induction cs generalizing acc with
  | nil => simp [splitSlash, h]
  | cons c cs ih =>
    unfold splitSlash
    by_cases hc : c = '/'
    · simp [hc, h]
    · simp only [hc, if_false]
      exact ih _ (by simp)

theorem lookup_insert_of_some (w : World) (p q : Path) (m n : Inode)
    (hp : w.lookup p = none) (hq : w.lookup q = some n) :
    (w.insert p m).lookup q = some n := by
  cases q with
  | nil => simpa [World.lookup, World.insert] using hq
  | cons a as =>
    have hne : p ≠ a :: as := by
      intro he; rw [he, hq] at hp; exact Option.noConfusion hp
    simpa [World.lookup, World.insert, findNode, hne] using hq

theorem lookup_insert_self (w : World) (p : Path) (c : String) (m : Inode) :
    (w.insert (p ++ [c]) m).lookup (p ++ [c]) = some m := by
  cases h : p ++ [c] with
  | nil => simp at h
  | cons a as => simp [World.lookup, World.insert, findNode]

theorem step_insert (w : World) (p cur q : Path) (c : String) (m : Inode)
    (hp : w.lookup p = none) (h : w.step cur c = .ok q) :
    (w.insert p m).step cur c = .ok q := by
  unfold World.step at h ⊢
  cases hcur : w.lookup cur with
  | none => simp [hcur] at h
  | some d =>
    rw [lookup_insert_of_some w p cur m d hp hcur]
    simp only [hcur] at h ⊢
    split_ifs at h ⊢ with h1 h2 h3 h4
    · exact h
    · exact h
    · cases hn : w.lookup (cur ++ [c]) with
      | none => simp [hn] at h
      | some n =>
        rw [lookup_insert_of_some w p _ m n hp hn]
        simpa [hn] using h

theorem walk_insert (w : World) (p : Path) (m : Inode) (hp : w.lookup p = none)
    (cs : List String) (cur q : Path) (h : w.walk cur cs = .ok q) :
    (w.insert p m).walk cur cs = .ok q := by
  induction cs generalizing cur with
  | nil => simpa [World.walk] using h
  | cons c cs ih =>
    simp only [World.walk] at h ⊢
    cases hs : w.step cur c with
    | error e => simp [hs] at h
    | ok next =>
      rw [step_insert w p cur next c m hp hs]
      simp only [hs] at h
      exact ih next h

/-- When `syscall.Mkdir` succeeds: the name is well formed and not empty, all
components but the last lead to a directory that is searchable and writable,
the last component is a proper name with no node under it, and the new state
is the old one with that one directory added. -/
theorem sysMkdir_ok_iff (w w' : World) (name : String) (perm : Nat) :
    w.sysMkdir name perm = .ok w' ↔
      ∃ parent d c, hasNul name = false ∧ name.utf8ByteSize < PATH_MAX ∧ name ≠ "" ∧
        (components name).getLast? = some c ∧
        w.resolve (w.start name) (components name).dropLast = .ok (parent, d) ∧
        d.kind = Kind.directory ∧ d.searchable = true ∧ d.writable = true ∧
        c ≠ "." ∧ c ≠ ".." ∧ c.utf8ByteSize ≤ NAME_MAX ∧ w.lookup (parent ++ [c]) = none ∧
        w' = w.insert (parent ++ [c]) (w.newDir perm) := by
  constructor
  · intro h
    unfold World.sysMkdir at h
    by_cases h0 : hasNul name = true
    · rw [if_pos h0] at h; exact Except.noConfusion h
    rw [if_neg h0] at h
    by_cases hlen : PATH_MAX ≤ name.utf8ByteSize
    · rw [if_pos hlen] at h; exact Except.noConfusion h
    rw [if_neg hlen] at h
    by_cases hn : name = ""
    · rw [if_pos hn] at h; exact Except.noConfusion h
    rw [if_neg hn] at h
    cases hl : (components name).getLast? with
    | none => simp [hl] at h
    | some c =>
      simp only [hl] at h
      cases hr : w.resolve (w.start name) (components name).dropLast with
      | error e => simp [hr] at h
      | ok pd =>
        obtain ⟨parent, d⟩ := pd
        simp only [hr] at h
        by_cases h1 : d.kind ≠ Kind.directory
        · rw [if_pos h1] at h; exact Except.noConfusion h
        rw [if_neg h1] at h
        by_cases h2 : (!d.searchable) = true
        · rw [if_pos h2] at h; exact Except.noConfusion h
        rw [if_neg h2] at h
        by_cases h3 : c = "." ∨ c = ".."
        · rw [if_pos h3] at h; exact Except.noConfusion h
        rw [if_neg h3] at h
        by_cases h4 : NAME_MAX < c.utf8ByteSize
        · rw [if_pos h4] at h; exact Except.noConfusion h
        rw [if_neg h4] at h
        by_cases h5 : (w.lookup (parent ++ [c])).isSome = true
        · rw [if_pos h5] at h; exact Except.noConfusion h
        rw [if_neg h5] at h
        by_cases h6 : (!d.writable) = true
        · rw [if_pos h6] at h; exact Except.noConfusion h
        rw [if_neg h6] at h
        refine ⟨parent, d, c, by simpa using h0, by omega, hn, rfl, rfl,
          ?_, ?_, ?_, ?_, ?_, ?_, ?_, ?_⟩
        · simpa using h1
        · simpa using h2
        · simpa using h6
        · exact fun hc => h3 (Or.inl hc)
        · exact fun hc => h3 (Or.inr hc)
        · omega
        · simpa using h5
        · exact (Except.ok.inj h).symm
  · rintro ⟨parent, d, c, h0, hlen, hn, hl, hr, hk, hs, hw, hc1, hc2, hc3, hlk, rfl⟩
    unfold World.sysMkdir
    have hlen' : ¬ PATH_MAX ≤ name.utf8ByteSize := by omega
    have hc3' : ¬ NAME_MAX < c.utf8ByteSize := by omega
    simp [h0, hlen', hn, hl, hr, hk, hs, hw, hc1, hc2, hc3', hlk]

theorem sysStat_after_sysMkdir (w w' : World) (name : String) (perm : Nat)
    (h : w.sysMkdir name perm = .ok w') : w'.sysStat name = .ok (w.newDir perm) := by
  obtain ⟨parent, d, c, h0, hlen, hn, hl, hr, hk, hs, _, hc1, hc2, hc3, hlk, rfl⟩ :=
    (sysMkdir_ok_iff w w' name perm).1 h
  have hcs : (components name).dropLast ++ [c] = components name :=
    List.dropLast_append_getLast? c hl
  have hwalk : w.walk (w.start name) (components name).dropLast = .ok parent
      ∧ w.lookup parent = some d := by
    unfold World.resolve at hr
    cases hw : w.walk (w.start name) (components name).dropLast with
    | error e => simp [hw] at hr
    | ok p =>
      simp only [hw] at hr
      cases hp : w.lookup p with
      | none => simp [hp] at hr
      | some n =>
        simp only [hp] at hr
        have := Except.ok.inj hr
        simp only [Prod.mk.injEq] at this
        obtain ⟨rfl, rfl⟩ := this
        exact ⟨rfl, hp⟩
  have hstart : (w.insert (parent ++ [c]) (w.newDir perm)).start name = w.start name := rfl
  have hw' := walk_insert w (parent ++ [c]) (w.newDir perm) hlk _ _ _ hwalk.1
  have hd' := lookup_insert_of_some w (parent ++ [c]) parent (w.newDir perm) d hlk hwalk.2
  have hself := lookup_insert_self w parent c (w.newDir perm)
  have hlen' : ¬ PATH_MAX ≤ name.utf8ByteSize := by omega
  have hc3' : ¬ NAME_MAX < c.utf8ByteSize := by omega
  have hstep : (w.insert (parent ++ [c]) (w.newDir perm)).step parent c
      = .ok (parent ++ [c]) := by
    unfold World.step
    simp [hd', hk, hs, hc1, hc2, hc3', hself]
  unfold World.sysStat World.resolve
  rw [hstart, ← hcs, walk_append, hw']
  have hkind : (w.newDir perm).kind = Kind.directory := rfl
  simp [h0, hlen', hn, hstep, hself, hkind]

theorem start_eq_root_of_components_nil (w : World) (name : String) (hn : name ≠ "")
    (hnil : components name = []) : w.start name = [] := by
  rcases name with ⟨l⟩
  cases l with
  | nil => exact absurd rfl hn
  | cons c cs =>
    by_cases hc : c = '/'
    · subst hc
      simp [World.start]
    · exfalso
      apply splitSlash_ne_nil cs [c] (by simp)
      simpa [components, splitSlash, hc] using hnil

theorem resolve_root_nil (w : World) :
    w.resolve [] [] = .ok ([], { kind := Kind.directory, mode := w.rootMode }) := rfl

theorem sysStat_enoent_of_parent_enoent (w : World) (name : String)
    (h0 : hasNul name = false) (hlen : name.utf8ByteSize < PATH_MAX)
    (h : w.resolve (w.start name) (components name).dropLast = .error Errno.ENOENT) :
    w.sysStat name = .error Errno.ENOENT := by
  have hlen' : ¬ PATH_MAX ≤ name.utf8ByteSize := by omega
  unfold World.sysStat
  simp only [h0, hlen', if_false, Bool.false_eq_true]
  by_cases hn : name = ""
  · simp [hn]
  · simp only [hn, if_false]
    cases hl : (components name).getLast? with
    | none =>
      have hnil : components name = [] := List.getLast?_eq_none_iff.1 hl
      rw [hnil, start_eq_root_of_components_nil w name hn hnil] at h
      simp [resolve_root_nil] at h
    | some c =>
      have hcs : (components name).dropLast ++ [c] = components name :=
        List.dropLast_append_getLast? c hl
      have hres : w.resolve (w.start name) (components name) = .error Errno.ENOENT := by
        unfold World.resolve at h ⊢
        rw [← hcs, walk_append]
        cases hw : w.walk (w.start name) (components name).dropLast with
        | error e =>
          simp only [hw] at h ⊢
          exact h
        | ok p =>
          simp only [hw] at h ⊢
          cases hp : w.lookup p with
          | none => simp [World.step, hp]
          | some n => simp [hp] at h
      simp [hres]

theorem sysMkdir_enoent_of_parent_enoent (w : World) (name : String) (perm : Nat)
    (h0 : hasNul name = false) (hlen : name.utf8ByteSize < PATH_MAX)
    (h : w.resolve (w.start name) (components name).dropLast = .error Errno.ENOENT) :
    w.sysMkdir name perm = .error Errno.ENOENT := by
  have hlen' : ¬ PATH_MAX ≤ name.utf8ByteSize := by omega
  unfold World.sysMkdir
  simp only [h0, hlen', if_false, Bool.false_eq_true]
  by_cases hn : name = ""
  · simp [hn]
  · simp only [hn, if_false]
    cases hl : (components name).getLast? with
    | none =>
      have hnil : components name = [] := List.getLast?_eq_none_iff.1 hl
      rw [hnil, start_eq_root_of_components_nil w name hn hnil] at h
      simp [resolve_root_nil] at h
    | some c => simp [h]

/-- When the name is well formed and resolving all its components but the
last fails with `ENOENT`, the existence check reports not-found, `mkdir` fails
with `ENOENT`, and the method returns that path error in an unchanged state. -/
theorem CreateExternalResultDir_parent_enoent (ctx : Ctx) (w : World)
    (h0 : hasNul ctx.ExtResultDir = false) (hlen : ctx.ExtResultDir.utf8ByteSize < PATH_MAX)
    (h : w.resolve (w.start ctx.ExtResultDir) (components ctx.ExtResultDir).dropLast
      = .error Errno.ENOENT) :
    CreateExternalResultDir ctx w
      = (ctx, w, some (GoError.PathError "mkdir" ctx.ExtResultDir Errno.ENOENT)) := by
  have hs := sysStat_enoent_of_parent_enoent w ctx.ExtResultDir h0 hlen h
  have hm := sysMkdir_enoent_of_parent_enoent w ctx.ExtResultDir ModePerm h0 hlen h
  simp [CreateExternalResultDir, Stat, Mkdir, IsNotExist, hs, hm]

/-! ## The claims on `CreateExternalResultDir` -/

/-- C5: the code at a state where the existence check fails with an error
other than not-found. The directory `/home/locked` has no search permission,
so `os.Stat` of `/home/locked/out` fails with `EACCES`; the method then
returns nil, not that error, and leaves the filesystem as it was. -/
theorem CreateExternalResultDir_drops_stat_error :
    Stat sampleWorld "/home/locked/out"
      = (none, some (GoError.PathError "stat" "/home/locked/out" Errno.EACCES)) ∧
    IsNotExist (Stat sampleWorld "/home/locked/out").2 = false ∧
    CreateExternalResultDir (sampleCtx "/home/locked/out") sampleWorld
      = (sampleCtx "/home/locked/out", sampleWorld, none) := by
  decide

/-- C6: when the result directory does not exist and `mkdir` of it can
succeed, the method returns nil and leaves a state that is the old one with
exactly one node added, a directory which `os.Stat` of the result directory
now finds; a second call in that state returns nil and changes nothing. -/
theorem CreateExternalResultDir_creates_once (ctx : Ctx) (w : World)
    (habsent : w.sysStat ctx.ExtResultDir = .error Errno.ENOENT)
    (hmkdir : ∃ w₁, w.sysMkdir ctx.ExtResultDir ModePerm = .ok w₁) :
    ∃ w' p,
      CreateExternalResultDir ctx w = (ctx, w', none) ∧
      w.lookup p = none ∧ w' = w.insert p (w.newDir ModePerm) ∧
      Stat w' ctx.ExtResultDir = (some (w.newDir ModePerm), none) ∧
      (w.newDir ModePerm).kind = Kind.directory ∧
      CreateExternalResultDir ctx w' = (ctx, w', none) := by
  obtain ⟨w₁, hmk⟩ := hmkdir
  obtain ⟨parent, d, c, _, _, _, _, _, _, _, _, _, _, _, hlk, hw₁⟩ :=
    (sysMkdir_ok_iff w w₁ ctx.ExtResultDir ModePerm).1 hmk
  have hst := sysStat_after_sysMkdir w w₁ ctx.ExtResultDir ModePerm hmk
  refine ⟨w₁, parent ++ [c], ?_, hlk, hw₁, ?_, rfl, ?_⟩
  · simp [CreateExternalResultDir, Stat, Mkdir, IsNotExist, habsent, hmk]
  · simp [Stat, hst]
  · simp [CreateExternalResultDir, Stat, IsNotExist, hst]

/-- Witness for C6: the relative name `out` in the working directory
`/home/work` of the sample state. -/
theorem CreateExternalResultDir_creates_once_witness :
    ∃ w' p,
      CreateExternalResultDir (sampleCtx "out") sampleWorld = (sampleCtx "out", w', none) ∧
      sampleWorld.lookup p = none ∧ w' = sampleWorld.insert p (sampleWorld.newDir ModePerm) ∧
      Stat w' "out" = (some (sampleWorld.newDir ModePerm), none) ∧
      (sampleWorld.newDir ModePerm).kind = Kind.directory ∧
      CreateExternalResultDir (sampleCtx "out") w' = (sampleCtx "out", w', none) :=
  CreateExternalResultDir_creates_once (sampleCtx "out") sampleWorld (by decide)
    ⟨sampleWorld.insert ["home", "work", "out"] (sampleWorld.newDir ModePerm), by decide⟩

/-- C7: when `os.Stat` of the result directory succeeds, whatever node it
finds, the method returns nil and the context and the filesystem state are
the ones it was called with. -/
theorem CreateExternalResultDir_existing_unchanged (ctx : Ctx) (w : World) (n : Inode)
    (h : Stat w ctx.ExtResultDir = (some n, none)) :
    CreateExternalResultDir ctx w = (ctx, w, none) := by
  simp [CreateExternalResultDir, h, IsNotExist]

/-- Witness for C7: an existing regular file, `/home/work/notes`. -/
theorem CreateExternalResultDir_existing_unchanged_witness :
    Stat sampleWorld "/home/work/notes" = (some { kind := Kind.regular, mode := 0o644 }, none) ∧
    CreateExternalResultDir (sampleCtx "/home/work/notes") sampleWorld
      = (sampleCtx "/home/work/notes", sampleWorld, none) :=
  ⟨by decide, CreateExternalResultDir_existing_unchanged (sampleCtx "/home/work/notes")
    sampleWorld { kind := Kind.regular, mode := 0o644 } (by decide)⟩

/-- C8: the code at a state where the parent of the result directory does
not exist and the claim's error is not returned. `/home/work/notes` is a
regular file, so `/home/work/notes/x`, the parent of `/home/work/notes/x/y`,
does not exist; `os.Stat` fails with `ENOTDIR`, which is not not-found, and
the method returns nil. Likewise behind the unsearchable `/home/locked`, where
`os.Stat` fails with `EACCES`. In both states nothing is created. -/
theorem CreateExternalResultDir_parent_missing_returns_nil :
    sampleWorld.lookup ["home", "work", "notes", "x"] = none ∧
    Stat sampleWorld "/home/work/notes/x/y"
      = (none, some (GoError.PathError "stat" "/home/work/notes/x/y" Errno.ENOTDIR)) ∧
    CreateExternalResultDir (sampleCtx "/home/work/notes/x/y") sampleWorld
      = (sampleCtx "/home/work/notes/x/y", sampleWorld, none) ∧
    sampleWorld.lookup ["home", "locked", "sub"] = none ∧
    Stat sampleWorld "/home/locked/sub/out"
      = (none, some (GoError.PathError "stat" "/home/locked/sub/out" Errno.EACCES)) ∧
    CreateExternalResultDir (sampleCtx "/home/locked/sub/out") sampleWorld
      = (sampleCtx "/home/locked/sub/out", sampleWorld, none) := by
  decide

theorem CreateExternalResultDir_ctx (ctx : Ctx) (w : World) :
    (CreateExternalResultDir ctx w).1 = ctx := by
  unfold CreateExternalResultDir
  simp only []
  split_ifs <;> rfl

theorem run_ctx (c : Call) (ctx : Ctx) (w : World) : (c.run (ctx, w)).1.1 = ctx := by
  cases c with
  | validate => rfl
  | createExternalResultDir => exact CreateExternalResultDir_ctx ctx w

theorem runCalls_ctx (calls : List Call) (ctx : Ctx) (w : World) :
    (runCalls calls (ctx, w)).1 = ctx := by
  induction calls generalizing w with
  | nil => rfl
  | cons c cs ih =>
    have h := run_ctx c ctx w
    have e : (c.run (ctx, w)).1 = (ctx, (c.run (ctx, w)).1.2) :=
      Prod.ext h rfl
    simp only [runCalls]
    rw [e]
    exact ih _

/-! ## The claim on sequences of calls -/

/-- C9: neither `Validate` nor `CreateExternalResultDir` changes the context,
in any filesystem state and whatever error they return; so after any sequence
of the two calls the context is the one the sequence started with, and if
`Validate` returned nil on it, `Validate` returns nil at the end and the four
required fields are non-empty there. -/
theorem validated_preserved_by_calls :
    (∀ (ctx : Ctx) (w : World),
      (Call.validate.run (ctx, w)).1.1 = ctx ∧ (CreateExternalResultDir ctx w).1 = ctx) ∧
    (∀ (calls : List Call) (ctx : Ctx) (w : World), Validate ctx = none →
      (runCalls calls (ctx, w)).1 = ctx ∧
      Validate (runCalls calls (ctx, w)).1 = none ∧
      0 < (runCalls calls (ctx, w)).1.GitHub.AccessToken.length ∧
      0 < (runCalls calls (ctx, w)).1.GitHub.SearchType.length ∧
      0 < (runCalls calls (ctx, w)).1.GitHub.Query.length ∧
      0 < (runCalls calls (ctx, w)).1.ExternalCmd.length) := by
  refine ⟨fun ctx w => ⟨rfl, CreateExternalResultDir_ctx ctx w⟩, ?_⟩
  intro calls ctx w hv
  rw [runCalls_ctx]
  exact ⟨rfl, hv, (Validate_eq_none_iff ctx).1 hv⟩

/-- Witness for C9: four calls on a sample context, the second of which
creates the directory `out` and the fourth of which finds it. -/
theorem validated_preserved_by_calls_witness :
    Validate (runCalls
      [Call.validate, Call.createExternalResultDir, Call.validate, Call.createExternalResultDir]
      (sampleCtx "out", sampleWorld)).1 = none :=
  (validated_preserved_by_calls.2
    [Call.validate, Call.createExternalResultDir, Call.validate, Call.createExternalResultDir]
    (sampleCtx "out") sampleWorld (by decide)).2.1

end Neighbor
